import Mathlib

/-!
Verification development for the zedboard_dma AXI-Stream DMA controller.

The repository ships the public header `axis_dma_controller.h` and the sample
harness `axis_dma_controller_sample_exec.c`.  The controller implementation
file itself (`axis_dma_controller.c`) is not part of the sources at hand, so
the transmit fragmentation, the descriptor-ring accounting, the RX dispatch
and the lifecycle operations are modelled from the design specification
(sections 4.2, 4.3, 4.5); every such definition is marked
`Modelled from the spec`.  The harness (`rx_callback`, the parameter
assignments and the control flow of `axis_dma_controller_sample_exec`) is
embedded directly from the C source.

Bytes are modelled as natural numbers, buffers as lists of bytes, and the
buffer handed to a callback as the list of bytes it spans.
-/

namespace ZedboardDma

/-- XST_SUCCESS return code from the Xilinx standard headers. -/
def XST_SUCCESS : Int := 0

/-- XST_FAILURE return code from the Xilinx standard headers. -/
def XST_FAILURE : Int := 1

/-- Error code from `axis_dma_controller.h` line 16: returned when not enough
bds can be allocated from `axisDmaCtrl_sendPackets`. -/
def E_NOBDS : Int := -2

/-- Modelled from the spec: the sample harness (line 79) compares the send
return code against `E_AXISDMA_NOBDS`, a name the sources at hand do not
define; the header defines the single no-descriptors code `E_NOBDS = -2`
(the spec has exactly one `InsufficientDescriptors` code), so the two names
denote the same code. -/
def E_AXISDMA_NOBDS : Int := E_NOBDS

/-! ### TX fragmentation (modelled from the spec, section 4.2)

`chunkBytesF` splits a byte list into consecutive segments of `bd` bytes
(the last one possibly shorter).  The `fuel` argument only forces structural
termination; one unit of fuel is spent per produced segment, so any
`fuel ≥ length` is enough. -/

/-- Fuel-driven splitting of a byte list into segments of at most `bd` bytes. -/
def chunkBytesF (bd : Nat) : Nat → List Nat → List (List Nat)
  | 0, _ => []
  | _, [] => []
  | fuel + 1, a :: rest =>
      (a :: rest.take (bd - 1)) :: chunkBytesF bd fuel (rest.drop (bd - 1))

/-- Modelled from the spec: step 3 of `send` slices
`packet_bytes[i*bd_buffer_size : min((i+1)*bd_buffer_size, packet_length)]`
into descriptor i's buffer. -/
def chunkBytes (bd : Nat) (l : List Nat) : List (List Nat) :=
  chunkBytesF bd l.length l

/-- Fuel-driven arithmetic mirror of `chunkBytesF`: the sizes of the segments
a byte count `L` is split into. -/
def chunkSizesF (bd : Nat) : Nat → Nat → List Nat
  | 0, _ => []
  | _, 0 => []
  | fuel + 1, L + 1 => min bd (L + 1) :: chunkSizesF bd fuel (L + 1 - bd)

/-- Sizes of the fragments of a packet of `L` bytes under buffer size `bd`. -/
def chunkSizes (bd L : Nat) : List Nat :=
  chunkSizesF bd L L

/-- Modelled from the spec: `n = ceil(packet_length / bd_buffer_size)`,
computed over naturals as `(len + bd - 1) / bd`. -/
def numBds (len bd : Nat) : Nat :=
  (len + bd - 1) / bd

/-- Buffer descriptor, data model of the spec (section 3): buffer content,
start-of-packet flag and end-of-packet flag. -/
structure TxDescriptor where
  bytes : List Nat
  is_start_of_packet : Bool
  is_end_of_packet : Bool
  deriving DecidableEq

/-- Tag a list of segments with SOF/EOF flags: segment at running index `i`
out of `n` total gets SOF exactly at index 0 and EOF exactly at index `n-1`. -/
def tagChunks (n : Nat) : Nat → List (List Nat) → List TxDescriptor
  | _, [] => []
  | i, c :: rest =>
      ⟨c, decide (i = 0), decide (i = n - 1)⟩ :: tagChunks n (i + 1) rest

/-- Modelled from the spec: the descriptor chain built for one packet,
SOF on descriptor 0 only and EOF on descriptor n-1 only (section 4.2 step 3). -/
def mkDescriptors (packet : List Nat) (bd : Nat) : List TxDescriptor :=
  tagChunks (chunkBytes bd packet).length 0 (chunkBytes bd packet)

/-- State of the descriptor ring visible to `send`: the number of free
descriptors and the chain of descriptors submitted so far. -/
structure RingState where
  freeBds : Nat
  submitted : List TxDescriptor
  deriving DecidableEq

/-- Result taxonomy of `send` from the spec (section 7). -/
inductive SendResult where
  | ok
  | invalidArgument
  | packetTooLarge
  | insufficientDescriptors
  deriving DecidableEq

/-- Modelled from the spec: integer codes for the send results.  The header
fixes `ok ↦ XST_SUCCESS = 0` and `insufficientDescriptors ↦ E_NOBDS = -2`;
the spec names `InvalidArgument` and `PacketTooLarge` but not their values,
so distinct values are chosen for them. -/
def errCode : SendResult → Int
  | SendResult.ok => 0
  | SendResult.invalidArgument => -3
  | SendResult.packetTooLarge => -4
  | SendResult.insufficientDescriptors => -2

/-- Modelled from the spec: `axisDmaCtrl_sendPackets` (section 4.2).  A zero
length packet is rejected as `InvalidArgument`; a packet larger than the
addressable buffer pool capacity is rejected as `PacketTooLarge`; if fewer
than `n = ceil(len / bd)` descriptors are free the call fails with
`InsufficientDescriptors` and the ring is left untouched; otherwise the
descriptor chain is submitted atomically and `n` free descriptors are
consumed. -/
def axisDmaCtrl_sendPackets (st : RingState) (capacity bd : Nat)
    (packet : List Nat) : SendResult × RingState :=
  if packet.length = 0 then
    (SendResult.invalidArgument, st)
  else if capacity < packet.length then
    (SendResult.packetTooLarge, st)
  else if st.freeBds < numBds packet.length bd then
    (SendResult.insufficientDescriptors, st)
  else
    (SendResult.ok,
      ⟨st.freeBds - numBds packet.length bd,
       st.submitted ++ mkDescriptors packet bd⟩)

/-- Modelled from the spec: the DMA engine transfers each submitted
descriptor faithfully and the RX dispatcher invokes the registered callback
once per retired descriptor, in arrival order, with the captured bytes; the
AXI-Stream end-of-frame marker flags the terminal fragment (sections 4.2,
4.3).  Each entry is the byte span handed to the callback together with its
packet-terminal flag. -/
def rxRetirements (packet : List Nat) (bd : Nat) : List (List Nat × Bool) :=
  (mkDescriptors packet bd).map (fun d => (d.bytes, d.is_end_of_packet))

/-! ### Lifecycle (modelled from the spec, section 4.5) -/

/-- Registration and engine state the lifecycle controller manages: the two
interrupt-line registrations, the running DMA engine, and the two callback
bindings. -/
structure CtrlState where
  txIrqRegistered : Bool
  rxIrqRegistered : Bool
  engineRunning : Bool
  txCbRegistered : Bool
  rxCbRegistered : Bool
  deriving DecidableEq

/-- Modelled from the spec: `axisDmaCtrl_disable` (its implementation file is
not among the sources at hand) unregisters both interrupt lines, resets the
DMA engine and clears both callback registrations, per section 4.5 and the
header comment on `axisDmaCtrl_disable`. -/
def axisDmaCtrl_disable (_st : CtrlState) : CtrlState :=
  { txIrqRegistered := false
    rxIrqRegistered := false
    engineRunning := false
    txCbRegistered := false
    rxCbRegistered := false }

/-! ### The sample harness, embedded from `axis_dma_controller_sample_exec.c`

`txPkt` is modelled as a total function from index to byte (the C array is a
fixed 1 MiB static buffer), a received buffer as the list of bytes it spans.
The five static counters/flags of the harness form `RxState`. -/

/-- The harness's mutable globals (lines 21-26): `error`, `pkt_complete`,
`pkt_bytes_rx`, `rx_pkt_count` and `rx_bd_count`. -/
structure RxState where
  error : Bool
  pkt_complete : Bool
  pkt_bytes_rx : Nat
  rx_pkt_count : Nat
  rx_bd_count : Nat
  deriving DecidableEq

/-- State after the resets on lines 61-66 of the sample (also the static
initializers on lines 24-26): no error, `pkt_complete = 1`,
`pkt_bytes_rx = 0`, counters zero. -/
def rxInitState : RxState :=
  { error := false
    pkt_complete := true
    pkt_bytes_rx := 0
    rx_pkt_count := 0
    rx_bd_count := 0 }

/-- The data-compare loop of `rx_callback`: scans the received buffer against
`txPkt` starting at `off` and reports whether any byte mismatches (the C loop
sets `error = 1` at the first mismatch and breaks; the flag value only
records that a mismatch exists). -/
def mismatch (txPkt : Nat → Nat) : Nat → List Nat → Bool
  | _, [] => false
  | off, b :: rest =>
      if b ≠ txPkt off then true else mismatch txPkt (off + 1) rest

/-- Embedding of `rx_callback` (lines 100-143): compare the received bytes
against `txPkt` at offset 0 when a fresh packet starts (`pkt_complete`) or at
offset `pkt_bytes_rx` otherwise, accumulate `pkt_bytes_rx += buf_len`, then
either close the packet (`error || pkt_bytes_rx >= MAX_PKT_SIZE`: set
`pkt_complete`, zero `pkt_bytes_rx`, bump `rx_pkt_count`) or stay
accumulating; finally bump `rx_bd_count`. -/
def rx_callback (txPkt : Nat → Nat) (maxPktSize : Nat) (st : RxState)
    (buf : List Nat) : RxState :=
  let err := st.error ||
    (if st.pkt_complete then mismatch txPkt 0 buf
     else mismatch txPkt st.pkt_bytes_rx buf)
  let bytes := st.pkt_bytes_rx + buf.length
  if err = true ∨ maxPktSize ≤ bytes then
    { error := err
      pkt_complete := true
      pkt_bytes_rx := 0
      rx_pkt_count := st.rx_pkt_count + 1
      rx_bd_count := st.rx_bd_count + 1 }
  else
    { error := err
      pkt_complete := false
      pkt_bytes_rx := bytes
      rx_pkt_count := st.rx_pkt_count
      rx_bd_count := st.rx_bd_count + 1 }

/-- The value of the `error` flag right after the data-compare section of
`rx_callback` (lines 109-130): the previous flag, or a fresh mismatch found
at offset 0 for a fresh packet, or at offset `pkt_bytes_rx` mid-packet. -/
def rxErr (txPkt : Nat → Nat) (st : RxState) (buf : List Nat) : Bool :=
  st.error ||
    (if st.pkt_complete then mismatch txPkt 0 buf
     else mismatch txPkt st.pkt_bytes_rx buf)

/-- The sixteen fields of `struct axisDmaCtrl_params`
(`axis_dma_controller.h` lines 34-52). -/
inductive ParamField where
  | rx_bd_space_base
  | rx_bd_space_high
  | tx_bd_space_base
  | tx_bd_space_high
  | tx_buffer_base
  | tx_buffer_high
  | rx_buffer_base
  | rx_buffer_high
  | bd_buf_size
  | coalesce_count
  | axisDma_txIrqPriority
  | axisDma_rxIrqPriority
  | axisDma_txIrqId
  | axisDma_rxIrqId
  | axisDma_dmaDevId
  | axisDma_XscuGic_DevId
  deriving DecidableEq, Fintype

/-- The fields of `params` the sample harness assigns before calling
`axisDmaCtrl_init`, transcribed in order from lines 43-57 of
`axis_dma_controller_sample_exec.c`. -/
def sampleAssignedFields : List ParamField :=
  [ParamField.rx_bd_space_base,
   ParamField.rx_bd_space_high,
   ParamField.tx_bd_space_base,
   ParamField.tx_bd_space_high,
   ParamField.tx_buffer_base,
   ParamField.tx_buffer_high,
   ParamField.rx_buffer_base,
   ParamField.rx_buffer_high,
   ParamField.bd_buf_size,
   ParamField.coalesce_count,
   ParamField.axisDma_txIrqPriority,
   ParamField.axisDma_rxIrqPriority,
   ParamField.axisDma_txIrqId,
   ParamField.axisDma_rxIrqId,
   ParamField.axisDma_dmaDevId]

/-- One iteration of the harness's send loop as the environment resolves it:
the return code of `axisDmaCtrl_sendPackets` and the values of the `error`
flag and `rx_pkt_count` when the loop condition is next evaluated (both are
mutated concurrently by the interrupt-driven callbacks). -/
structure SampleStep where
  sendRc : Int
  errorAfter : Bool
  rxPktCountAfter : Nat
  deriving DecidableEq

/-- The send loop and epilogue of `axis_dma_controller_sample_exec`
(lines 77-92).  The result is `some (returnCode, disableCalled)`, or `none`
when the supplied trace ends while the loop would still run.  The loop sends
while `rx_pkt_count < numTestPkts && !error`; a send return code other than
`XST_SUCCESS` or `E_AXISDMA_NOBDS` returns `XST_FAILURE` at once (no
teardown); after the loop, a set `error` flag returns `XST_FAILURE` (no
teardown); otherwise `axisDmaCtrl_disable` is called and `XST_SUCCESS`
returned. -/
def sampleLoop (numTestPkts : Nat) :
    List SampleStep → Nat → Bool → Option (Int × Bool)
  | [], count, err =>
      if count < numTestPkts ∧ err = false then none
      else if err = true then some (XST_FAILURE, false)
      else some (XST_SUCCESS, true)
  | s :: rest, count, err =>
      if count < numTestPkts ∧ err = false then
        if s.sendRc ≠ XST_SUCCESS ∧ s.sendRc ≠ E_AXISDMA_NOBDS then
          some (XST_FAILURE, false)
        else
          sampleLoop numTestPkts rest s.rxPktCountAfter s.errorAfter
      else if err = true then some (XST_FAILURE, false)
      else some (XST_SUCCESS, true)

/-- Control flow of `axis_dma_controller_sample_exec` (lines 34-93): a
nonzero `axisDmaCtrl_init` return code fails immediately (line 72-75, no
teardown); otherwise the send loop runs from the reset state
`rx_pkt_count = 0`, `error = 0` (lines 61-66). -/
def axis_dma_controller_sample_exec (initRc : Int) (numTestPkts : Nat)
    (steps : List SampleStep) : Option (Int × Bool) :=
  if initRc ≠ 0 then some (XST_FAILURE, false)
  else sampleLoop numTestPkts steps 0 false

/-! ### Basic properties of the fragmentation -/

theorem chunkBytesF_flatten (bd : Nat) :
    ∀ (fuel : Nat) (l : List Nat), l.length ≤ fuel →
      (chunkBytesF bd fuel l).flatten = l := by
  intro fuel
  induction fuel with
  | zero =>
      intro l hl
      have : l = [] := List.length_eq_zero.mp (Nat.le_zero.mp hl)
      subst this
      rfl
  | succ n ih =>
      intro l hl
      cases l with
      | nil => rfl
      | cons a rest =>
          have hdrop : (rest.drop (bd - 1)).length ≤ n := by
            rw [List.length_drop]
            simp only [List.length_cons] at hl
            omega
          simp only [chunkBytesF, List.flatten_cons, ih _ hdrop, List.cons_append]
          rw [List.take_append_drop]

/-- The fragments of a packet concatenate back to the packet. -/
theorem chunkBytes_flatten (bd : Nat) (l : List Nat) :
    (chunkBytes bd l).flatten = l :=
  chunkBytesF_flatten bd l.length l (Nat.le_refl _)

/-- Splitting one step off the ceiling division: a nonempty packet needs one
descriptor plus however many the remainder needs. -/
theorem numBds_step (L bd : Nat) (hbd : 0 < bd) (hL : 0 < L) :
    numBds L bd = 1 + numBds (L - bd) bd := by
  unfold numBds
  rcases Nat.le_total L bd with hle | hge
  · have h1 : L + bd - 1 = (L - 1) + bd := by omega
    have h2 : L - bd = 0 := by omega
    rw [h1, h2, Nat.add_div_right _ hbd, Nat.div_eq_of_lt (by omega),
      Nat.div_eq_of_lt (by omega)]
  · have h1 : L + bd - 1 = ((L - bd) + bd - 1) + bd := by omega
    rw [h1, Nat.add_div_right _ hbd]
    omega

theorem chunkSizesF_length (bd : Nat) (hbd : 0 < bd) :
    ∀ (fuel L : Nat), L ≤ fuel →
      (chunkSizesF bd fuel L).length = numBds L bd := by
  intro fuel
  induction fuel with
  | zero =>
      intro L hL
      have : L = 0 := Nat.le_zero.mp hL
      subst this
      simp [chunkSizesF, numBds, Nat.div_eq_of_lt (by omega : bd - 1 < bd)]
  | succ n ih =>
      intro L hL
      cases L with
      | zero =>
          simp [chunkSizesF, numBds, Nat.div_eq_of_lt (by omega : bd - 1 < bd)]
      | succ m =>
          simp only [chunkSizesF, List.length_cons, ih (m + 1 - bd) (by omega)]
          rw [numBds_step (m + 1) bd hbd (by omega)]
          omega

theorem chunkBytesF_map_length (bd : Nat) (hbd : 0 < bd) :
    ∀ (fuel : Nat) (l : List Nat), l.length ≤ fuel →
      (chunkBytesF bd fuel l).map List.length = chunkSizesF bd fuel l.length := by
  intro fuel
  induction fuel with
  | zero =>
      intro l hl
      have : l = [] := List.length_eq_zero.mp (Nat.le_zero.mp hl)
      subst this
      rfl
  | succ n ih =>
      intro l hl
      cases l with
      | nil => rfl
      | cons a rest =>
          have hdrop : (rest.drop (bd - 1)).length ≤ n := by
            rw [List.length_drop]
            simp only [List.length_cons] at hl
            omega
          simp only [chunkBytesF, List.map_cons, List.length_cons,
            ih _ hdrop, chunkSizesF, List.length_drop]
          congr 1
          · simp only [List.length_take]
            omega
          · congr 1
            omega

/-- Fragment sizes of a packet are `chunkSizes` of its length. -/
theorem chunkBytes_map_length (bd : Nat) (hbd : 0 < bd) (l : List Nat) :
    (chunkBytes bd l).map List.length = chunkSizes bd l.length :=
  chunkBytesF_map_length bd hbd l.length l (Nat.le_refl _)

/-- The number of fragments is the ceiling of length over buffer size. -/
theorem chunkBytes_length (bd : Nat) (hbd : 0 < bd) (l : List Nat) :
    (chunkBytes bd l).length = numBds l.length bd := by
  have h := congrArg List.length (chunkBytes_map_length bd hbd l)
  rw [List.length_map] at h
  rw [h]
  exact chunkSizesF_length bd hbd l.length l.length (Nat.le_refl _)

theorem chunkBytesF_get (bd : Nat) (hbd : 0 < bd) :
    ∀ (fuel : Nat) (l : List Nat), l.length ≤ fuel →
      ∀ (i : Nat) (h : i < (chunkBytesF bd fuel l).length),
        (chunkBytesF bd fuel l).get ⟨i, h⟩ = (l.drop (i * bd)).take bd := by
  intro fuel
  induction fuel with
  | zero =>
      intro l hl i h
      have : l = [] := List.length_eq_zero.mp (Nat.le_zero.mp hl)
      subst this
      simp [chunkBytesF] at h
  | succ n ih =>
      intro l hl i h
      cases l with
      | nil => simp [chunkBytesF] at h
      | cons a rest =>
          cases i with
          | zero =>
              simp only [chunkBytesF, List.get_cons_zero, List.drop_zero]
              cases bd with
              | zero => omega
              | succ k =>
                  simp [List.take_cons]
          | succ j =>
              have hdrop : (rest.drop (bd - 1)).length ≤ n := by
                rw [List.length_drop]
                simp only [List.length_cons] at hl
                omega
              simp only [chunkBytesF, List.length_cons] at h
              simp only [chunkBytesF, List.get_cons_succ]
              rw [ih _ hdrop j (by omega)]
              rw [List.drop_drop]
              have hsm : (j + 1) * bd = j * bd + bd := by ring
              have hdc : (a :: rest).drop ((j + 1) * bd)
                  = rest.drop ((j + 1) * bd - 1) := by
                cases hk : (j + 1) * bd with
                | zero => omega
                | succ m => simp [List.drop_succ_cons]
              rw [hdc]
              have harith : bd - 1 + j * bd = (j + 1) * bd - 1 := by omega
              rw [harith]

theorem tagChunks_length (n : Nat) :
    ∀ (cs : List (List Nat)) (i : Nat), (tagChunks n i cs).length = cs.length := by
  intro cs
  induction cs with
  | nil => intro i; rfl
  | cons c rest ih =>
      intro i
      simp only [tagChunks, List.length_cons, ih]

theorem tagChunks_get (n : Nat) :
    ∀ (cs : List (List Nat)) (i j : Nat) (h1 : j < (tagChunks n i cs).length)
      (h2 : j < cs.length),
      (tagChunks n i cs).get ⟨j, h1⟩ =
        ⟨cs.get ⟨j, h2⟩, decide (i + j = 0), decide (i + j = n - 1)⟩ := by
  intro cs
  induction cs with
  | nil => intro i j h1 h2; simp at h2
  | cons c rest ih =>
      intro i j h1 h2
      cases j with
      | zero =>
          simp [tagChunks]
      | succ k =>
          have h2' : k < rest.length := by
            simp only [List.length_cons] at h2
            omega
          have h1' : k < (tagChunks n (i + 1) rest).length := by
            rw [tagChunks_length]
            exact h2'
          simp only [tagChunks, List.get_cons_succ]
          rw [ih (i + 1) k h1' h2']
          have hadd : i + 1 + k = i + (k + 1) := by omega
          rw [hadd]

theorem tagChunks_map_bytes (n : Nat) :
    ∀ (cs : List (List Nat)) (i : Nat),
      (tagChunks n i cs).map (fun d => d.bytes) = cs := by
  intro cs
  induction cs with
  | nil => intro i; rfl
  | cons c rest ih =>
      intro i
      simp only [tagChunks, List.map_cons, ih]

theorem tagChunks_map_eof (n : Nat) :
    ∀ (cs : List (List Nat)) (i : Nat),
      (tagChunks n i cs).map (fun d => d.is_end_of_packet) =
        (List.range cs.length).map (fun j => decide (i + j = n - 1)) := by
  intro cs
  induction cs with
  | nil => intro i; rfl
  | cons c rest ih =>
      intro i
      simp only [tagChunks, List.map_cons, ih, List.length_cons,
        List.range_succ_eq_map, List.map_map]
      simp only [List.cons.injEq]
      constructor
      · simp
      · apply List.map_congr_left
        intro j hj
        simp only [Function.comp_apply, decide_eq_decide]
        omega

theorem tagChunks_countP_eof (n : Nat) :
    ∀ (cs : List (List Nat)) (i : Nat),
      (tagChunks n i cs).countP (fun d => d.is_end_of_packet) =
        if i ≤ n - 1 ∧ n - 1 < i + cs.length then 1 else 0 := by
  intro cs
  induction cs with
  | nil =>
      intro i
      simp only [tagChunks, List.countP_nil, List.length_nil]
      split
      · omega
      · rfl
  | cons c rest ih =>
      intro i
      simp only [tagChunks, List.countP_cons, ih, List.length_cons,
        decide_eq_true_eq]
      split_ifs <;> omega


/-! ### Helper theorems about the embedded operations -/

/-- Branch form of `rx_callback`, with the compare result abbreviated. -/
theorem rx_callback_eq (txPkt : Nat → Nat) (maxPktSize : Nat) (st : RxState)
    (buf : List Nat) :
    rx_callback txPkt maxPktSize st buf =
      if rxErr txPkt st buf = true ∨ maxPktSize ≤ st.pkt_bytes_rx + buf.length
      then
        { error := rxErr txPkt st buf
          pkt_complete := true
          pkt_bytes_rx := 0
          rx_pkt_count := st.rx_pkt_count + 1
          rx_bd_count := st.rx_bd_count + 1 }
      else
        { error := rxErr txPkt st buf
          pkt_complete := false
          pkt_bytes_rx := st.pkt_bytes_rx + buf.length
          rx_pkt_count := st.rx_pkt_count
          rx_bd_count := st.rx_bd_count + 1 } :=
  rfl

/-- Content and flags of descriptor `i` of the chain built for a packet. -/
theorem mkDescriptors_get (packet : List Nat) (bd : Nat) (hbd : 0 < bd)
    (i : Nat) (h : i < (mkDescriptors packet bd).length) :
    (mkDescriptors packet bd).get ⟨i, h⟩ =
      ⟨(packet.drop (i * bd)).take bd, decide (i = 0),
       decide (i = numBds packet.length bd - 1)⟩ := by
  have hcs : i < (chunkBytes bd packet).length := by
    have h2 := h
    unfold mkDescriptors at h2
    rw [tagChunks_length] at h2
    exact h2
  have hget := tagChunks_get (chunkBytes bd packet).length
      (chunkBytes bd packet) 0 i (by unfold mkDescriptors at h; exact h) hcs
  have hbytes := chunkBytesF_get bd hbd packet.length packet
      (Nat.le_refl _) i hcs
  refine Eq.trans hget ?_
  simp only [TxDescriptor.mk.injEq]
  refine ⟨hbytes, by simp, ?_⟩
  simp only [Nat.zero_add]
  rw [chunkBytes_length bd hbd packet]

/-- Every terminating run of the harness loop pairs teardown with success:
it yields `(XST_SUCCESS, disable called)` or `(XST_FAILURE, no disable)`. -/
theorem sampleLoop_disable_iff_success (num : Nat) :
    ∀ (steps : List SampleStep) (count : Nat) (err : Bool) (r : Int)
      (b : Bool), sampleLoop num steps count err = some (r, b) →
        (b = true ↔ r = XST_SUCCESS) := by
  intro steps
  induction steps with
  | nil =>
      intro count err r b h
      simp only [sampleLoop] at h
      split_ifs at h
      all_goals
        simp only [Option.some.injEq, Prod.mk.injEq] at h
        obtain ⟨hr, hb⟩ := h
        subst hr
        subst hb
        simp [XST_FAILURE, XST_SUCCESS]
  | cons s rest ih =>
      intro count err r b h
      simp only [sampleLoop] at h
      split_ifs at h
      all_goals first
        | exact ih s.rxPktCountAfter s.errorAfter r b h
        | (simp only [Option.some.injEq, Prod.mk.injEq] at h
           obtain ⟨hr, hb⟩ := h
           subst hr
           subst hb
           simp [XST_FAILURE, XST_SUCCESS])

/-! ### Claim theorems -/

/-- C1: round-trip law: fragmenting a nonempty packet into BD segments of at
most `bd_buf_size` bytes and concatenating, in arrival order, the spans
handed to the RX callback yields the original byte sequence; with
`bd_buffer_size = 4096` a 10000-byte packet arrives as three fragments of
4096, 4096 and 1808 bytes with the terminal flag on the third only. -/
theorem c1_roundtrip (packet : List Nat) (bd : Nat) (hbd : 0 < bd)
    (hlen : 0 < packet.length) :
    ((rxRetirements packet bd).map (fun f => f.1)).flatten = packet ∧
    (bd = 4096 → packet.length = 10000 →
      (rxRetirements packet bd).map (fun f => f.1.length)
          = [4096, 4096, 1808] ∧
      (rxRetirements packet bd).map (fun f => f.2)
          = [false, false, true]) := by
  have hfst : (rxRetirements packet bd).map (fun f => f.1)
      = chunkBytes bd packet := by
    simp only [rxRetirements, mkDescriptors, List.map_map]
    exact tagChunks_map_bytes _ _ _
  constructor
  · rw [hfst, chunkBytes_flatten]
  · intro hbd4096 hlen10000
    subst hbd4096
    constructor
    · have hmap : (rxRetirements packet 4096).map (fun f => f.1.length)
          = ((rxRetirements packet 4096).map (fun f => f.1)).map
              List.length := by
        rw [List.map_map]
        rfl
      rw [hmap, hfst, chunkBytes_map_length 4096 (by omega), hlen10000]
      decide
    · have heof : (rxRetirements packet 4096).map (fun f => f.2)
          = (List.range (chunkBytes 4096 packet).length).map
              (fun j =>
                decide (0 + j = (chunkBytes 4096 packet).length - 1)) := by
        simp only [rxRetirements, mkDescriptors, List.map_map]
        exact tagChunks_map_eof _ _ _
      rw [heof, chunkBytes_length 4096 (by omega), hlen10000]
      decide

/-- C1 witness: the round-trip law applied to a concrete packet. -/
theorem c1_roundtrip_witness :
    ((rxRetirements [1, 2, 3] 2).map (fun f => f.1)).flatten = [1, 2, 3] :=
  (c1_roundtrip [1, 2, 3] 2 (by decide) (by decide)).1

/-- C2: send is all-or-nothing: when fewer descriptors are free than the
`ceil(len / bd)` required, the call fails with `InsufficientDescriptors`
(whose code is `E_NOBDS`) and the ring state is exactly what it was before
the call. -/
theorem c2_send_all_or_nothing (st : RingState) (capacity bd : Nat)
    (packet : List Nat) (hlen : packet.length ≠ 0)
    (hcap : packet.length ≤ capacity)
    (hfree : st.freeBds < numBds packet.length bd) :
    axisDmaCtrl_sendPackets st capacity bd packet
      = (SendResult.insufficientDescriptors, st) ∧
    errCode SendResult.insufficientDescriptors = E_NOBDS := by
  constructor
  · unfold axisDmaCtrl_sendPackets
    rw [if_neg hlen, if_neg (by omega), if_pos hfree]
  · rfl

/-- C2 witness: the spec scenario, a ring with exactly 2 free descriptors
and a packet needing 3. -/
theorem c2_send_all_or_nothing_witness :
    axisDmaCtrl_sendPackets ⟨2, []⟩ 100 10 (List.replicate 30 0)
      = (SendResult.insufficientDescriptors, ⟨2, []⟩) :=
  (c2_send_all_or_nothing ⟨2, []⟩ 100 10 (List.replicate 30 0) (by decide)
    (by decide) (by decide)).1

/-- C3: for a packet of length `L` the RX callback is invoked once per
retired descriptor, hence exactly `ceil(L / bd_buf_size)` times, and exactly
one invocation carries the packet-terminal flag. -/
theorem c3_callback_per_descriptor (packet : List Nat) (bd : Nat)
    (hbd : 0 < bd) (hlen : 0 < packet.length) :
    (rxRetirements packet bd).length = numBds packet.length bd ∧
    (rxRetirements packet bd).countP (fun f => f.2) = 1 := by
  have hnum : 1 ≤ numBds packet.length bd := by
    unfold numBds
    rw [Nat.one_le_div_iff hbd]
    omega
  have hcsl : (chunkBytes bd packet).length = numBds packet.length bd :=
    chunkBytes_length bd hbd packet
  constructor
  · simp only [rxRetirements, List.length_map, mkDescriptors,
      tagChunks_length]
    exact hcsl
  · unfold rxRetirements mkDescriptors
    rw [List.countP_map]
    have h := tagChunks_countP_eof (chunkBytes bd packet).length
        (chunkBytes bd packet) 0
    rw [if_pos (by omega)] at h
    exact h

/-- C3 witness: a 3-byte packet with 2-byte buffers gives 2 invocations,
one terminal. -/
theorem c3_callback_per_descriptor_witness :
    (rxRetirements [1, 2, 3] 2).countP (fun f => f.2) = 1 :=
  (c3_callback_per_descriptor [1, 2, 3] 2 (by decide) (by decide)).2

/-- C4 counterexample: the claim "completion occurs exactly when the
terminal-fragment flag is set or the accumulated bytes reach the maximum"
fails on `rx_callback`: a first fragment of 1 byte that mismatches the sent
data closes the packet although no terminal flag exists in the callback
interface (`rx_cb_t` carries only address and length, so the flag is
`False` here) and only 1 of the 3 expected bytes accumulated. -/
theorem c4_counterexample :
    ¬ (((rx_callback (fun _ => 0) 3 rxInitState [5]).pkt_complete = true) ↔
        (False ∨ 3 ≤ rxInitState.pkt_bytes_rx + [5].length)) := by
  decide

/-- C4 amended: on every `rx_callback` invocation the packet is marked
complete, with `pkt_bytes_rx` reset to 0 and `rx_pkt_count` bumped, exactly
when the data-compare `error` flag is set or the accumulated bytes reach
`MAX_PKT_SIZE`; otherwise `pkt_bytes_rx` accumulates `buf_len`; `rx_bd_count`
always increments. -/
theorem c4_rx_state_update (txPkt : Nat → Nat) (maxPktSize : Nat)
    (st : RxState) (buf : List Nat) :
    ((rx_callback txPkt maxPktSize st buf).pkt_complete = true ↔
        ((rx_callback txPkt maxPktSize st buf).error = true ∨
          maxPktSize ≤ st.pkt_bytes_rx + buf.length)) ∧
    (rx_callback txPkt maxPktSize st buf).pkt_bytes_rx
        = (if (rx_callback txPkt maxPktSize st buf).pkt_complete = true
           then 0 else st.pkt_bytes_rx + buf.length) ∧
    (rx_callback txPkt maxPktSize st buf).rx_pkt_count
        = (if (rx_callback txPkt maxPktSize st buf).pkt_complete = true
           then st.rx_pkt_count + 1 else st.rx_pkt_count) ∧
    (rx_callback txPkt maxPktSize st buf).rx_bd_count
        = st.rx_bd_count + 1 := by
  rw [rx_callback_eq]
  by_cases hc : rxErr txPkt st buf = true ∨
      maxPktSize ≤ st.pkt_bytes_rx + buf.length
  · rw [if_pos hc]
    simp [hc]
  · rw [if_neg hc]
    simp [hc]

/-- C5: a successful send splits the packet into `ceil(len / bd)`
descriptors, descriptor `i` carrying the byte slice
`packet[i*bd : min((i+1)*bd, len)]`, SOF on descriptor 0 only and EOF on
descriptor `n-1` only, and appends exactly that chain to the ring. -/
theorem c5_tx_fragmentation (st : RingState) (capacity bd : Nat)
    (packet : List Nat) (hbd : 0 < bd) (hlen : 0 < packet.length)
    (hcap : packet.length ≤ capacity)
    (hfree : numBds packet.length bd ≤ st.freeBds) :
    (axisDmaCtrl_sendPackets st capacity bd packet).1 = SendResult.ok ∧
    (axisDmaCtrl_sendPackets st capacity bd packet).2.submitted
        = st.submitted ++ mkDescriptors packet bd ∧
    (mkDescriptors packet bd).length = numBds packet.length bd ∧
    ∀ (i : Nat) (h : i < (mkDescriptors packet bd).length),
      ((mkDescriptors packet bd).get ⟨i, h⟩).bytes
          = (packet.drop (i * bd)).take bd ∧
      (((mkDescriptors packet bd).get ⟨i, h⟩).is_start_of_packet = true
          ↔ i = 0) ∧
      (((mkDescriptors packet bd).get ⟨i, h⟩).is_end_of_packet = true
          ↔ i = numBds packet.length bd - 1) := by
  have hsend : axisDmaCtrl_sendPackets st capacity bd packet
      = (SendResult.ok,
          ⟨st.freeBds - numBds packet.length bd,
           st.submitted ++ mkDescriptors packet bd⟩) := by
    unfold axisDmaCtrl_sendPackets
    rw [if_neg (by omega), if_neg (by omega), if_neg (by omega)]
  have hmklen : (mkDescriptors packet bd).length
      = numBds packet.length bd := by
    unfold mkDescriptors
    rw [tagChunks_length]
    exact chunkBytes_length bd hbd packet
  refine ⟨by rw [hsend], by rw [hsend], hmklen, ?_⟩
  intro i h
  rw [mkDescriptors_get packet bd hbd i h]
  refine ⟨rfl, by simp, by simp⟩

/-- C5 witness: a 3-byte packet with 2-byte buffers is accepted. -/
theorem c5_tx_fragmentation_witness :
    (axisDmaCtrl_sendPackets ⟨3, []⟩ 10 2 [1, 2, 3]).1 = SendResult.ok :=
  (c5_tx_fragmentation ⟨3, []⟩ 10 2 [1, 2, 3] (by decide) (by decide)
    (by decide) (by decide)).1

/-- C6: send rejects caller misuse synchronously: a zero-length packet
fails with `InvalidArgument` and an over-capacity packet with
`PacketTooLarge`, both distinguishable from success and from the
`InsufficientDescriptors` code `E_NOBDS`. -/
theorem c6_send_rejects_misuse (st : RingState) (capacity bd : Nat)
    (pEmpty pBig : List Nat) (hempty : pEmpty.length = 0)
    (hbig : capacity < pBig.length) :
    (axisDmaCtrl_sendPackets st capacity bd pEmpty).1
        = SendResult.invalidArgument ∧
    (axisDmaCtrl_sendPackets st capacity bd pBig).1
        = SendResult.packetTooLarge ∧
    SendResult.invalidArgument ≠ SendResult.ok ∧
    SendResult.packetTooLarge ≠ SendResult.ok ∧
    SendResult.invalidArgument ≠ SendResult.insufficientDescriptors ∧
    SendResult.packetTooLarge ≠ SendResult.insufficientDescriptors ∧
    errCode SendResult.invalidArgument ≠ XST_SUCCESS ∧
    errCode SendResult.packetTooLarge ≠ XST_SUCCESS ∧
    errCode SendResult.invalidArgument ≠ E_NOBDS ∧
    errCode SendResult.packetTooLarge ≠ E_NOBDS := by
  refine ⟨?_, ?_, by decide, by decide, by decide, by decide, by decide,
    by decide, by decide, by decide⟩
  · unfold axisDmaCtrl_sendPackets
    rw [if_pos hempty]
  · unfold axisDmaCtrl_sendPackets
    rw [if_neg (by omega), if_pos hbig]

/-- C6 witness: a zero-length and an over-capacity packet at concrete
inputs. -/
theorem c6_send_rejects_misuse_witness :
    (axisDmaCtrl_sendPackets ⟨5, []⟩ 4 2 []).1
        = SendResult.invalidArgument ∧
    (axisDmaCtrl_sendPackets ⟨5, []⟩ 4 2 [1, 2, 3, 4, 5]).1
        = SendResult.packetTooLarge := by
  have h := c6_send_rejects_misuse ⟨5, []⟩ 4 2 [] [1, 2, 3, 4, 5]
      (by decide) (by decide)
  exact ⟨h.1, h.2.1⟩

/-- C7: `axisDmaCtrl_disable` is idempotent: a second call on an
already-disabled instance is a no-op leaving the interrupt registrations,
engine state and callback bindings unchanged. -/
theorem c7_disable_idempotent (st : CtrlState) :
    axisDmaCtrl_disable (axisDmaCtrl_disable st) = axisDmaCtrl_disable st :=
  rfl

/-- C8: the sample caller assigns exactly fifteen of the sixteen fields of
`struct axisDmaCtrl_params` before its `axisDmaCtrl_init` call: every field
is assigned except `axisDma_XscuGic_DevId`, which is never assigned. -/
theorem c8_gic_devid_never_assigned :
    (∀ f : ParamField,
        f ∈ sampleAssignedFields ↔ f ≠ ParamField.axisDma_XscuGic_DevId) ∧
    sampleAssignedFields.length = 15 := by
  decide

/-- C9: sample-harness reassembly invariant: initially `pkt_complete = 1`
and `pkt_bytes_rx = 0`; after any `rx_callback` invocation with
`buf_len ≥ 1` (and a positive configured maximum packet size),
`pkt_complete = 1` iff `pkt_bytes_rx = 0`, `pkt_bytes_rx < MAX_PKT_SIZE`,
and `rx_pkt_count` is bumped exactly when the invocation sets
`pkt_complete` back to 1. -/
theorem c9_harness_invariant (txPkt : Nat → Nat) (maxPktSize : Nat)
    (st : RxState) (buf : List Nat) (hbuf : 1 ≤ buf.length)
    (hmax : 1 ≤ maxPktSize) :
    (rxInitState.pkt_complete = true ∧ rxInitState.pkt_bytes_rx = 0) ∧
    ((rx_callback txPkt maxPktSize st buf).pkt_complete = true ↔
        (rx_callback txPkt maxPktSize st buf).pkt_bytes_rx = 0) ∧
    (rx_callback txPkt maxPktSize st buf).pkt_bytes_rx < maxPktSize ∧
    ((rx_callback txPkt maxPktSize st buf).rx_pkt_count
          = st.rx_pkt_count + 1 ↔
        (rx_callback txPkt maxPktSize st buf).pkt_complete = true) := by
  rw [rx_callback_eq]
  by_cases hc : rxErr txPkt st buf = true ∨
      maxPktSize ≤ st.pkt_bytes_rx + buf.length
  · rw [if_pos hc]
    refine ⟨⟨rfl, rfl⟩, ?_, ?_, ?_⟩
    · show true = true ↔ (0 : Nat) = 0
      simp
    · show (0 : Nat) < maxPktSize
      omega
    · show st.rx_pkt_count + 1 = st.rx_pkt_count + 1 ↔ true = true
      simp
  · rw [if_neg hc]
    push_neg at hc
    obtain ⟨hc1, hc2⟩ := hc
    refine ⟨⟨rfl, rfl⟩, ?_, ?_, ?_⟩
    · show false = true ↔ st.pkt_bytes_rx + buf.length = 0
      simp only [Bool.false_eq_true, false_iff]
      omega
    · show st.pkt_bytes_rx + buf.length < maxPktSize
      omega
    · show st.rx_pkt_count = st.rx_pkt_count + 1 ↔ false = true
      simp only [Bool.false_eq_true, iff_false]
      omega

/-- C9 witness: one matching 1-byte fragment with maximum packet size 2. -/
theorem c9_harness_invariant_witness :
    (rx_callback (fun _ => 0) 2 rxInitState [0]).pkt_bytes_rx < 2 :=
  (c9_harness_invariant (fun _ => 0) 2 rxInitState [0] (by decide)
    (by decide)).2.2.1

/-- C10: the sample harness tears down only on full success: every
terminating run pairs the `axisDmaCtrl_disable` call with `XST_SUCCESS`
(second component `true` means disable was called); an init failure, an
unexpected send return code, or a set `error` flag each return
`XST_FAILURE` without invoking disable. -/
theorem c10_teardown_only_on_success (initRc : Int) (num : Nat)
    (steps : List SampleStep) (s : SampleStep) (count : Nat) :
    (∀ (r : Int) (b : Bool),
        axis_dma_controller_sample_exec initRc num steps = some (r, b) →
          (b = true ↔ r = XST_SUCCESS)) ∧
    (initRc ≠ 0 →
        axis_dma_controller_sample_exec initRc num steps
          = some (XST_FAILURE, false)) ∧
    (count < num → s.sendRc ≠ XST_SUCCESS → s.sendRc ≠ E_AXISDMA_NOBDS →
        sampleLoop num (s :: steps) count false
          = some (XST_FAILURE, false)) ∧
    sampleLoop num steps count true = some (XST_FAILURE, false) := by
  refine ⟨?_, ?_, ?_, ?_⟩
  · intro r b h
    unfold axis_dma_controller_sample_exec at h
    split_ifs at h with h0
    · simp only [Option.some.injEq, Prod.mk.injEq] at h
      obtain ⟨hr, hb⟩ := h
      subst hr
      subst hb
      simp [XST_FAILURE, XST_SUCCESS]
    · exact sampleLoop_disable_iff_success num steps 0 false r b h
  · intro h0
    unfold axis_dma_controller_sample_exec
    rw [if_pos h0]
  · intro hlt hrc1 hrc2
    simp [sampleLoop, hlt, hrc1, hrc2]
  · cases steps with
    | nil => simp [sampleLoop]
    | cons a rest => simp [sampleLoop]

/-- C10 witness: an error-flagged loop exit and a failing init, at concrete
inputs. -/
theorem c10_teardown_only_on_success_witness :
    sampleLoop 5 [] 0 true = some (XST_FAILURE, false) ∧
    axis_dma_controller_sample_exec 1 5 [] = some (XST_FAILURE, false) := by
  constructor
  · exact (c10_teardown_only_on_success 1 5 [] ⟨0, false, 0⟩ 0).2.2.2
  · exact (c10_teardown_only_on_success 1 5 [] ⟨0, false, 0⟩ 0).2.1
      (by decide)

end ZedboardDma
